import Mathlib

/-!
Shallow embedding of the spatial-analysis and mapping-transform scripts of the
ifc-flow-vibe repository (docs/python-examples/space-analysis-example.py,
room-assignment-transform.py, room-assignment-to-walls.py,
add-room-info-example.py), together with theorems settling the frozen claims
about them.

Modelling conventions:
* Python dicts become association lists `List (String × α)`; insertion with
  overwrite (`insertAssoc`) mirrors `d[k] = v`.
* Python `Optional[str]` attributes become `Option String`; the Python idiom
  `x or default` (which also triggers on the empty string, a falsy value)
  becomes `pyOr` / `pyOrS`.
* IFC entities are identified by their `GlobalId` string, and relationship
  membership tests (`x in rel.RelatedObjects`) are made by GlobalId for
  aggregation relationships and by whole-entity equality for containment
  relationships, matching the sole uses in the scripts.
* Numeric quantities are rationals; Python `round(x, n)` is modelled with
  Mathlib `round` (no claim depends on tie-breaking behaviour of float
  rounding).
-/

/-- An IFC entity as the scripts read it: `GlobalId`, optional `Name`,
optional `ObjectType`, optional `Description`, and `is_a()` type name. -/
structure Entity where
  globalId : String
  name : Option String
  objectType : Option String
  description : Option String
  typeName : String
  deriving DecidableEq, BEq

/-- An `IfcRelAggregates` relationship: `RelatingObject` (an entity) and the
GlobalIds of its `RelatedObjects`. -/
structure AggRel where
  relatingObject : Entity
  relatedObjects : List String
  deriving DecidableEq

/-- An `IfcRelContainedInSpatialStructure` relationship: the GlobalId of the
`RelatingStructure` and its `RelatedElements`. -/
structure ContainRel where
  relatingStructure : String
  relatedElements : List Entity
  deriving DecidableEq

/-- An `IfcRelAssignsToGroup` relationship: the GlobalId of `RelatingGroup`
and its `RelatedObjects`. -/
structure GroupRel where
  relatingGroup : String
  relatedObjects : List Entity
  deriving DecidableEq

/-- The building-model graph snapshot, pre-split by `model.by_type(...)` as
the scripts query it.  `qtoPsets` maps a space GlobalId to its
`Qto_SpaceBaseQuantities` quantity set when that pset is present. -/
structure Graph where
  spaces : List Entity
  zones : List Entity
  storeys : List Entity
  aggRels : List AggRel
  containRels : List ContainRel
  groupRels : List GroupRel
  elements : List Entity
  qtoPsets : List (String × List (String × ℚ))
  deriving DecidableEq

/-- Python `v or d` for an optional string attribute: `None` and the empty
string are falsy, so both fall back to the default. -/
def pyOr (v : Option String) (d : String) : String :=
  match v with
  | none => d
  | some s => if s = "" then d else s

/-- Python `s or d` for a plain string: the empty string falls back. -/
def pyOrS (s d : String) : String :=
  if s = "" then d else s

/-- Association-list lookup mirroring Python `m[k]` / `m.get(k)`. -/
def assocFind {α : Type} : List (String × α) → String → Option α
  | [], _ => none
  | p :: t, k => if p.1 == k then some p.2 else assocFind t k

/-- Association-list insert with overwrite, mirroring Python `m[k] = v`:
an existing key keeps its position and gets the new value, a new key is
appended at the end. -/
def insertAssoc {α : Type} : List (String × α) → String → α → List (String × α)
  | [], k, v => [(k, v)]
  | p :: t, k, v => if p.1 == k then (k, v) :: t else p :: insertAssoc t k v

/-- Python `k in m` for a dict modelled as an association list. -/
def containsKey {α : Type} (m : List (String × α)) (k : String) : Bool :=
  m.any (fun p => p.1 == k)

/-- Python `quantities.get(key, 0)` from `space-analysis-example.py`. -/
def getQty (q : List (String × ℚ)) (k : String) : ℚ :=
  match q.find? (fun p => p.1 == k) with
  | some p => p.2
  | none => 0

/-- Condition of the storey-resolution loop in `space-analysis-example.py`
(`space in rel.RelatedObjects and rel.RelatingObject.is_a("IfcBuildingStorey")`). -/
def aggMatches (gid : String) (r : AggRel) : Bool :=
  r.relatedObjects.contains gid && (r.relatingObject.typeName == "IfcBuildingStorey")

/-- Storey resolution from `space-analysis-example.py` (and the identical loop
in `add-room-info-example.py`): scan aggregation relationships, return the
Name of the relating object of the first relationship whose related set contains
the space and whose relating object is a building storey; `none` otherwise. -/
def storeyOf (rels : List AggRel) (gid : String) : Option String :=
  (rels.find? (aggMatches gid)).bind (fun r => r.relatingObject.name)

/-- Per-element summary dict `{"id", "type", "name"}` built both for
`space_info["elements"]` and for `unassigned` in `space-analysis-example.py`. -/
structure ElemRec where
  id : String
  type : String
  name : String
  deriving DecidableEq

def mkElemRec (e : Entity) : ElemRec :=
  { id := e.globalId
    type := e.typeName
    name := pyOr e.name (e.typeName ++ "_" ++ e.globalId.take 8) }

/-- Accumulate the related elements of every containment relationship whose
relating structure is the given space (the inner loop of the space pass). -/
def containedElems (rels : List ContainRel) (sgid : String) : List Entity :=
  rels.foldl (fun acc r =>
    if r.relatingStructure == sgid then acc ++ r.relatedElements else acc) []

/-- The `space_info` record of `space-analysis-example.py` (occupancy fields
from `Pset_SpaceCommon` are omitted: no theorem refers to them). -/
structure SpaceRec where
  id : String
  name : String
  type : String
  description : String
  storey : Option String
  elements : List ElemRec
  element_count : Nat
  area : ℚ
  volume : ℚ
  height : ℚ
  deriving DecidableEq

def mkSpaceRec (g : Graph) (s : Entity) : SpaceRec :=
  let ce := containedElems g.containRels s.globalId
  { id := s.globalId
    name := pyOr s.name ("Space_" ++ s.globalId.take 8)
    type := pyOr s.objectType "Generic"
    description := pyOr s.description ""
    storey := storeyOf g.aggRels s.globalId
    elements := ce.map mkElemRec
    element_count := ce.length
    area := match assocFind g.qtoPsets s.globalId with
            | some q => getQty q "NetFloorArea"
            | none => 0
    volume := match assocFind g.qtoPsets s.globalId with
              | some q => getQty q "NetVolume"
              | none => 0
    height := match assocFind g.qtoPsets s.globalId with
              | some q => getQty q "Height"
              | none => 0 }

/-- The value written to `element_space_map[element.GlobalId]`. -/
structure AssignVal where
  space_id : String
  space_name : String
  space_type : String
  storey : Option String
  deriving DecidableEq

def mkAssign (g : Graph) (s : Entity) : AssignVal :=
  let r := mkSpaceRec g s
  { space_id := s.globalId
    space_name := r.name
    space_type := r.type
    storey := r.storey }

abbrev EMapA := List (String × AssignVal)

/-- Insert one assignment per related element (inner `for element in
rel.RelatedElements` loop). -/
def insertElems (v : AssignVal) (m : EMapA) (es : List Entity) : EMapA :=
  es.foldl (fun m2 e => insertAssoc m2 e.globalId v) m

/-- One containment relationship of the space pass
(`if rel.RelatingStructure == space`). -/
def processRel (sgid : String) (v : AssignVal) (m : EMapA) (r : ContainRel) : EMapA :=
  if r.relatingStructure == sgid then insertElems v m r.relatedElements else m

/-- All containment relationships for one space. -/
def processSpace (g : Graph) (m : EMapA) (s : Entity) : EMapA :=
  g.containRels.foldl (processRel s.globalId (mkAssign g s)) m

/-- The dict `element_space_map` after the full space pass of
`space-analysis-example.py`. -/
def buildMap (g : Graph) : EMapA :=
  g.spaces.foldl (processSpace g) []

/-- Does some containment relationship of this space have an element with the
given GlobalId among its related elements? -/
def spaceContains (rels : List ContainRel) (sgid gid : String) : Bool :=
  rels.any (fun r =>
    (r.relatingStructure == sgid) && r.relatedElements.any (fun e => e.globalId == gid))

/-- The `in_storey` existence check of the unassigned pass
(`element in rel.RelatedElements` over all containment relationships). -/
def isContainedAny (rels : List ContainRel) (e : Entity) : Bool :=
  rels.any (fun r => r.relatedElements.contains e)

/-- One iteration of the unassigned pass of `space-analysis-example.py`. -/
def unassignedStep (g : Graph) (m : EMapA) (acc : List ElemRec) (e : Entity) : List ElemRec :=
  if !containsKey m e.globalId then
    if !isContainedAny g.containRels e then acc ++ [mkElemRec e] else acc
  else acc

/-- The `unassigned` list of `space-analysis-example.py`. -/
def unassignedList (g : Graph) (m : EMapA) : List ElemRec :=
  g.elements.foldl (unassignedStep g m) []

/-- A `{"id", "name"}` member reference of a zone record. -/
structure ZoneSpaceRef where
  id : String
  name : String
  deriving DecidableEq

/-- The `zone_info` record of `space-analysis-example.py`. -/
structure ZoneRec where
  id : String
  name : String
  type : String
  description : String
  spaces : List ZoneSpaceRef
  deriving DecidableEq

def mkZoneRec (g : Graph) (z : Entity) : ZoneRec :=
  { id := z.globalId
    name := pyOr z.name ("Zone_" ++ z.globalId.take 8)
    type := pyOr z.objectType "Generic"
    description := pyOr z.description ""
    spaces := g.groupRels.foldl (fun acc r =>
      if r.relatingGroup == z.globalId then
        acc ++ (r.relatedObjects.filter (fun o => o.typeName == "IfcSpace")).map
          (fun o => { id := o.globalId, name := pyOr o.name "" })
      else acc) [] }

/-- Substring test used to model the Python `in` operator on strings:
does the haystack start with the needle? -/
def startsWithChars : List Char → List Char → Bool
  | _, [] => true
  | [], _ :: _ => false
  | a :: as, b :: bs => (a = b) && startsWithChars as bs

/-- Does the needle occur anywhere in the haystack (Python `needle in hay`)? -/
def containsChars : List Char → List Char → Bool
  | [], needle => needle.isEmpty
  | h :: t, needle => startsWithChars (h :: t) needle || containsChars t needle

def strContains (hay needle : String) : Bool :=
  containsChars hay.toList needle.toList

/-- The fixed keyword set of the circulation heuristic. -/
def circulation_keywords : List String :=
  ["corridor", "hallway", "lobby", "stair", "elevator", "circulation"]

/-- Predicate `is_circulation` from `space-analysis-example.py`: some keyword occurs,
case-insensitively, in the name of the space or in its type. -/
def isCirculation (s : SpaceRec) : Bool :=
  circulation_keywords.any (fun k =>
    strContains (pyOrS s.name "").toLower k || strContains (pyOrS s.type "").toLower k)

/-- One iteration of the circulation/program classification loop. -/
def classifyStep (acc : List SpaceRec × List SpaceRec) (s : SpaceRec) :
    List SpaceRec × List SpaceRec :=
  if isCirculation s then (acc.1 ++ [s], acc.2) else (acc.1, acc.2 ++ [s])

/-- The pair `(circulation_spaces, program_spaces)` of `space-analysis-example.py`. -/
def classifySpaces (sd : List SpaceRec) : List SpaceRec × List SpaceRec :=
  sd.foldl classifyStep ([], [])

def areaSum (l : List SpaceRec) : ℚ := (l.map (fun s => s.area)).sum

def volumeSum (l : List SpaceRec) : ℚ := (l.map (fun s => s.volume)).sum

def heightSum (l : List SpaceRec) : ℚ := (l.map (fun s => s.height)).sum

/-- Python `round(x, 2)` modelled over the rationals. -/
def round2 (x : ℚ) : ℚ := (round (x * 100) : ℚ) / 100

/-- Python `round(x, 1)` modelled over the rationals. -/
def round1 (x : ℚ) : ℚ := (round (x * 10) : ℚ) / 10

/-- One of the two `circulation` / `program` summary sub-records. -/
structure CircStat where
  count : Nat
  area : ℚ
  percentage : ℚ
  deriving DecidableEq

/-- The `summary` dict of `space-analysis-example.py` (the `space_types`
grouping is omitted: no theorem refers to it). -/
structure Summary where
  total_spaces : Nat
  total_zones : Nat
  total_storeys : Nat
  assigned_elements : Nat
  unassigned_elements : Nat
  total_area : ℚ
  total_volume : ℚ
  average_height : ℚ
  circulation : CircStat
  program : CircStat
  deriving DecidableEq

/-- The final `result` dict of `space-analysis-example.py`. -/
structure AnalysisResult where
  spaces : List SpaceRec
  element_space_map : EMapA
  zones : List ZoneRec
  unassigned_elements : List ElemRec
  summary : Summary
  deriving DecidableEq

/-- The whole analysis of `space-analysis-example.py` as one pure function of
the graph snapshot. -/
def analyze (g : Graph) : AnalysisResult :=
  let space_data := g.spaces.map (mkSpaceRec g)
  let m := buildMap g
  let zone_data := g.zones.map (mkZoneRec g)
  let ua := unassignedList g m
  let total_area := areaSum space_data
  let total_volume := volumeSum space_data
  let avg_height := if space_data.isEmpty then 0 else heightSum space_data / (space_data.length : ℚ)
  let cp := classifySpaces space_data
  let circulation_area := areaSum cp.1
  let program_area := areaSum cp.2
  { spaces := space_data
    element_space_map := m
    zones := zone_data
    unassigned_elements := ua
    summary :=
      { total_spaces := g.spaces.length
        total_zones := g.zones.length
        total_storeys := g.storeys.length
        assigned_elements := m.length
        unassigned_elements := ua.length
        total_area := round2 total_area
        total_volume := round2 total_volume
        average_height := round2 avg_height
        circulation :=
          { count := cp.1.length
            area := round2 circulation_area
            percentage := if 0 < total_area then round1 (circulation_area / total_area * 100) else 0 }
        program :=
          { count := cp.2.length
            area := round2 program_area
            percentage := if 0 < total_area then round1 (program_area / total_area * 100) else 0 } } }

/-- A value of the element-space map as the transform scripts read it: only
the `spaceName` key is consulted, via `space_info.get("spaceName", "")`;
the remaining keys are carried but never branched on. -/
structure SpaceAssign where
  spaceName : Option String
  spaceType : Option String
  spaceId : Option String
  storey : Option String
  deriving DecidableEq

/-- Python `space_info.get("spaceName", "")`. -/
def wallEntryName (si : SpaceAssign) : String := (si.spaceName).getD ""

/-- Python `space_name and space_name != "None"`. -/
def validName (s : String) : Bool := !(s == "") && !(s == "None")

/-- The `input_data` dict as the three reader scripts probe it: the value
under the key `elementSpaceMap`, and the value under `element_space_map`,
each present or absent. -/
structure InputData where
  elementSpaceMap : Option (List (String × SpaceAssign))
  element_space_map : Option (List (String × SpaceAssign))
  deriving DecidableEq

/-- The reader of `add-room-info-example.py` (lines 14-19): take
`elementSpaceMap` if that key is present, else `element_space_map` if that
key is present, else nothing. -/
def space_assignments_of (input_data : InputData) : Option (List (String × SpaceAssign)) :=
  match input_data.elementSpaceMap with
  | some m => some m
  | none => input_data.element_space_map

/-- Running state of the wall-filter loops: `wall_mappings`, `walls_found`,
`other_elements_skipped`. -/
structure TransformState where
  mappings : List (String × String)
  wallsFound : Nat
  othersSkipped : Nat
  deriving DecidableEq

/-- One iteration of the loop of `room-assignment-transform.py`: a GlobalId
found among the wall GlobalIds of the model is included when its space name is
valid; any other GlobalId increments the skipped counter; a wall entry with
an invalid space name touches neither counter. -/
def transformStep (wallIds : List String) (st : TransformState) (p : String × SpaceAssign) :
    TransformState :=
  if wallIds.contains p.1 then
    let space_name := wallEntryName p.2
    if validName space_name then
      { st with mappings := insertAssoc st.mappings p.1 space_name
                wallsFound := st.wallsFound + 1 }
    else st
  else { st with othersSkipped := st.othersSkipped + 1 }

/-- The wall-filter loop of `room-assignment-transform.py`. -/
def transformRun (wallIds : List String) (entries : List (String × SpaceAssign)) :
    TransformState :=
  entries.foldl (transformStep wallIds) { mappings := [], wallsFound := 0, othersSkipped := 0 }

/-- The `metadata` dict of the transform outputs: counters when the input was
recognized, `error` when it was not. -/
structure Metadata1 where
  wallsFound : Option Nat
  otherElementsSkipped : Option Nat
  totalMappings : Option Nat
  error : Option String
  deriving DecidableEq

/-- The output dict holding the mappings and the metadata. -/
structure TransformOut where
  mappings : List (String × String)
  metadata : Metadata1
  deriving DecidableEq

/-- The whole of `room-assignment-transform.py`: `wall_global_ids` stands for
the GlobalIds collected from `model.by_type("IfcWall")`.  When the input has
no `elementSpaceMap` key the script builds the fixed error result. -/
def roomAssignmentTransform (input_data : InputData) (wall_global_ids : List String) :
    TransformOut :=
  match input_data.elementSpaceMap with
  | some m =>
    let st := transformRun wall_global_ids m
    { mappings := st.mappings
      metadata := { wallsFound := some st.wallsFound
                    otherElementsSkipped := some st.othersSkipped
                    totalMappings := some st.mappings.length
                    error := none } }
  | none =>
    { mappings := []
      metadata := { wallsFound := none
                    otherElementsSkipped := none
                    totalMappings := none
                    error := some "No room assignment data found" } }

/-- An element of `model["elements"]` as `room-assignment-to-walls.py` reads
it: internal `id`, `properties.GlobalId`, and `type`. -/
structure ModelElem where
  id : String
  globalId : String
  type : String
  deriving DecidableEq

/-- A value of `element_lookup`. -/
structure LookupVal where
  globalId : String
  type : String
  deriving DecidableEq

/-- The dict `element_lookup` of `room-assignment-to-walls.py`: internal id to
GlobalId and type, keeping only elements with non-empty id and GlobalId. -/
def buildElementLookup (elements : List ModelElem) : List (String × LookupVal) :=
  elements.foldl (fun acc e =>
    if !(e.id == "") && !(e.globalId == "") then
      insertAssoc acc e.id { globalId := e.globalId, type := e.type }
    else acc) []

/-- One iteration of the loop of `room-assignment-to-walls.py`: an entry whose
id is missing from the lookup touches nothing; a non-wall entry increments the
skipped counter; a wall entry is included only when its space name is valid. -/
def toWallsStep (lookup : List (String × LookupVal)) (st : TransformState)
    (p : String × SpaceAssign) : TransformState :=
  match assocFind lookup p.1 with
  | some info =>
    if info.type == "IfcWall" then
      let space_name := wallEntryName p.2
      if validName space_name then
        { st with mappings := insertAssoc st.mappings info.globalId space_name
                  wallsFound := st.wallsFound + 1 }
      else st
    else { st with othersSkipped := st.othersSkipped + 1 }
  | none => st

/-- The output of `room-assignment-to-walls.py`: either the structured
transform result, or the raw input dict passed through unchanged. -/
inductive ToWallsOutput where
  | transformed (t : TransformOut)
  | passthrough (d : InputData)
  deriving DecidableEq

/-- The whole of `room-assignment-to-walls.py`. -/
def roomAssignmentToWalls (input_data : InputData) (modelElements : List ModelElem) :
    ToWallsOutput :=
  match input_data.elementSpaceMap with
  | some m =>
    let lookup := buildElementLookup modelElements
    let st := m.foldl (toWallsStep lookup) { mappings := [], wallsFound := 0, othersSkipped := 0 }
    .transformed
      { mappings := st.mappings
        metadata := { wallsFound := some st.wallsFound
                      otherElementsSkipped := some st.othersSkipped
                      totalMappings := some st.mappings.length
                      error := none } }
  | none => .passthrough input_data

/-- Modelled from the spec: predicate, in the wording of the spec, deciding (for claim C2) whether the output of
`room-assignment-to-walls.py` report a `metadata.error` state?  A passthrough
output is the raw input dict, which carries no `metadata` key at all, so it
reports no error. -/
def ToWallsOutput.reportsError : ToWallsOutput → Bool
  | .transformed t => (t.metadata.error).isSome
  | .passthrough _ => false

/-- Entry classifiers of the `room-assignment-transform.py` loop, used to
state the counting theorems. -/
def isWallEntry (wallIds : List String) (p : String × SpaceAssign) : Bool :=
  wallIds.contains p.1

def isValidEntry (p : String × SpaceAssign) : Bool :=
  validName (wallEntryName p.2)

/-! Concrete inputs used by the witness theorems. -/

/-- An empty graph snapshot: no spaces, no relationships, no elements. -/
def gEmptyEx : Graph :=
  { spaces := [], zones := [], storeys := [], aggRels := [], containRels := []
    groupRels := [], elements := [], qtoPsets := [] }

/-- A space entity whose `Name` and `ObjectType` are the empty string. -/
def sBlankEx : Entity :=
  { globalId := "3vB2vPlghDYuk72ga432A1", name := some "", objectType := some ""
    description := none, typeName := "IfcSpace" }

def s1Ex : Entity :=
  { globalId := "S1", name := some "Room A", objectType := some "Office"
    description := none, typeName := "IfcSpace" }

def s2Ex : Entity :=
  { globalId := "S2", name := some "Room B", objectType := some "Office"
    description := none, typeName := "IfcSpace" }

def wallEx : Entity :=
  { globalId := "W1", name := some "Wall 1", objectType := none
    description := none, typeName := "IfcWall" }

/-- A malformed graph in which the element `W1` is claimed by the containment
relationships of the two distinct spaces `S1` and `S2`. -/
def gTwoSpacesEx : Graph :=
  { spaces := [s1Ex, s2Ex], zones := [], storeys := [], aggRels := []
    containRels := [{ relatingStructure := "S1", relatedElements := [wallEx] },
                    { relatingStructure := "S2", relatedElements := [wallEx] }]
    groupRels := [], elements := [wallEx], qtoPsets := [] }

/-- An element-space map with two wall entries carrying valid names and one
non-wall entry. -/
def entriesC1 : List (String × SpaceAssign) :=
  [("W1", { spaceName := some "Room A", spaceType := none, spaceId := none, storey := none }),
   ("W2", { spaceName := some "Room B", spaceType := none, spaceId := none, storey := none }),
   ("D1", { spaceName := some "Room A", spaceType := none, spaceId := none, storey := none })]

/-- A one-entry element-space map with a valid name on a wall GlobalId. -/
def mC4 : List (String × SpaceAssign) :=
  [("W1", { spaceName := some "Room A", spaceType := none, spaceId := none, storey := none })]



/-! Theorems.  First the helper lemmas shared between claims, then one theorem
per claim (with witness or counterexample where required). -/

theorem transformRun_wallsFound (wallIds : List String) :
    ∀ (entries : List (String × SpaceAssign)) (st : TransformState),
      (entries.foldl (transformStep wallIds) st).wallsFound
        = st.wallsFound
            + (entries.filter (fun p => isWallEntry wallIds p && isValidEntry p)).length
  | [], st => by simp
  | p :: t, st => by
    have ih := transformRun_wallsFound wallIds t
    cases hw : wallIds.contains p.1 with
    | true =>
      cases hv : validName (wallEntryName p.2) with
      | true =>
        simp only [List.foldl_cons, transformStep, hw, hv, if_true, List.filter_cons,
          isWallEntry, isValidEntry, Bool.and_self, ih]
        simp [Nat.add_assoc, Nat.add_comm 1]
      | false =>
        simp only [List.foldl_cons, transformStep, hw, hv, if_true, if_false,
          List.filter_cons, isWallEntry, isValidEntry, Bool.true_and, ih]
        simp
    | false =>
      simp only [List.foldl_cons, transformStep, hw, if_false, List.filter_cons,
        isWallEntry, isValidEntry, Bool.false_and, ih]
      simp

theorem transformRun_skipped (wallIds : List String) :
    ∀ (entries : List (String × SpaceAssign)) (st : TransformState),
      (entries.foldl (transformStep wallIds) st).othersSkipped
        = st.othersSkipped + (entries.filter (fun p => !isWallEntry wallIds p)).length
  | [], st => by simp
  | p :: t, st => by
    have ih := transformRun_skipped wallIds t
    cases hw : wallIds.contains p.1 with
    | true =>
      cases hv : validName (wallEntryName p.2) with
      | true =>
        simp only [List.foldl_cons, transformStep, hw, hv, if_true, List.filter_cons,
          isWallEntry, Bool.not_true, ih]
        simp
      | false =>
        simp only [List.foldl_cons, transformStep, hw, hv, if_true, if_false,
          List.filter_cons, isWallEntry, Bool.not_true, ih]
        simp
    | false =>
      simp only [List.foldl_cons, transformStep, hw, if_false, List.filter_cons,
        isWallEntry, Bool.not_false, ih]
      simp [Nat.add_assoc, Nat.add_comm 1]

theorem insertAssoc_values {α : Type} (P : α → Prop) :
    ∀ (m : List (String × α)) (k : String) (v : α),
      (∀ q ∈ m, P q.2) → P v → ∀ q ∈ insertAssoc m k v, P q.2
  | [], k, v => by
    intro hm hv q hq
    simp [insertAssoc] at hq
    simp [hq, hv]
  | p :: t, k, v => by
    intro hm hv q hq
    simp only [insertAssoc] at hq
    by_cases hpk : p.1 == k
    · simp [hpk] at hq
      rcases hq with hq | hq
      · simp [hq, hv]
      · exact hm q (List.mem_cons_of_mem p hq)
    · simp [hpk] at hq
      rcases hq with hq | hq
      · exact hm q (by simp [hq])
      · exact insertAssoc_values P t k v (fun q2 hq2 => hm q2 (List.mem_cons_of_mem p hq2)) hv q hq

theorem transformRun_mappings_valid (wallIds : List String) :
    ∀ (entries : List (String × SpaceAssign)) (st : TransformState),
      (∀ q ∈ st.mappings, validName q.2 = true) →
      ∀ q ∈ (entries.foldl (transformStep wallIds) st).mappings, validName q.2 = true
  | [], st => fun hst q hq => hst q hq
  | p :: t, st => by
    intro hst
    rw [List.foldl_cons]
    apply transformRun_mappings_valid wallIds t
    intro q2 hq2
    simp only [transformStep] at hq2
    split at hq2
    · split at hq2
      next hv =>
        exact insertAssoc_values (fun s => validName s = true) st.mappings p.1
          (wallEntryName p.2) hst hv q2 hq2
      next hv => exact hst q2 hq2
    · exact hst q2 hq2

theorem validName_spec (s : String) : validName s = true ↔ s ≠ "" ∧ s ≠ "None" := by
  simp [validName]

theorem filter3_length (wallIds : List String) :
    ∀ entries : List (String × SpaceAssign),
      (entries.filter (fun p => isWallEntry wallIds p && isValidEntry p)).length
          + (entries.filter (fun p => !isWallEntry wallIds p)).length
          + (entries.filter (fun p => isWallEntry wallIds p && !isValidEntry p)).length
        = entries.length
  | [] => by simp
  | p :: t => by
    have ih := filter3_length wallIds t
    cases hw : isWallEntry wallIds p <;> cases hv : isValidEntry p <;>
      simp [List.filter_cons, hw, hv] <;> omega

/-- Claim C1: for an element-space map whose wall entries all carry valid
space names, the wall-filter transform of `room-assignment-transform.py`
reports `walls_found` equal to the number of wall entries, reports
`other_elements_skipped` equal to the number of non-wall entries, and every
value of the produced mapping is a non-empty string different from "None". -/
theorem C1_mapping_round_trip (wallIds : List String) (entries : List (String × SpaceAssign))
    (hvalid : ∀ p ∈ entries, isWallEntry wallIds p = true → isValidEntry p = true) :
    (transformRun wallIds entries).wallsFound = (entries.filter (isWallEntry wallIds)).length ∧
    (transformRun wallIds entries).othersSkipped
      = (entries.filter (fun p => !isWallEntry wallIds p)).length ∧
    ∀ q ∈ (transformRun wallIds entries).mappings, q.2 ≠ "" ∧ q.2 ≠ "None" := by
  have hfc : entries.filter (fun p => isWallEntry wallIds p && isValidEntry p)
      = entries.filter (isWallEntry wallIds) := by
    apply List.filter_congr
    intro p hp
    cases hw : isWallEntry wallIds p with
    | true => simp [hvalid p hp hw]
    | false => simp
  refine ⟨?_, ?_, ?_⟩
  · have h := transformRun_wallsFound wallIds entries
      { mappings := [], wallsFound := 0, othersSkipped := 0 }
    simpa [transformRun, hfc] using h
  · have h := transformRun_skipped wallIds entries
      { mappings := [], wallsFound := 0, othersSkipped := 0 }
    simpa [transformRun] using h
  · intro q hq
    have h := transformRun_mappings_valid wallIds entries
      { mappings := [], wallsFound := 0, othersSkipped := 0 }
      (by intro q2 hq2; simp at hq2) q (by simpa [transformRun] using hq)
    exact (validName_spec q.2).mp h

theorem C1_mapping_round_trip_witness :
    (∀ p ∈ entriesC1, isWallEntry ["W1", "W2"] p = true → isValidEntry p = true) ∧
    ((transformRun ["W1", "W2"] entriesC1).wallsFound
        = (entriesC1.filter (isWallEntry ["W1", "W2"])).length ∧
      (transformRun ["W1", "W2"] entriesC1).othersSkipped
        = (entriesC1.filter (fun p => !isWallEntry ["W1", "W2"] p)).length ∧
      ∀ q ∈ (transformRun ["W1", "W2"] entriesC1).mappings, q.2 ≠ "" ∧ q.2 ≠ "None") :=
  ⟨by decide, C1_mapping_round_trip ["W1", "W2"] entriesC1 (by decide)⟩

/-- Claim C3 counterexample: a single wall entry whose space name is the
literal "None" is excluded from the mapping yet counted by neither counter,
so `matched + skipped` differs from the number of input entries. -/
theorem C3_counterexample :
    ¬ ((transformRun ["W1"]
            [("W1", { spaceName := some "None", spaceType := none, spaceId := none, storey := none })]).wallsFound
          + (transformRun ["W1"]
            [("W1", { spaceName := some "None", spaceType := none, spaceId := none, storey := none })]).othersSkipped
        = 1) := by
  decide

/-- Claim C3 amended: `walls_found` counts exactly the wall entries with a
valid space name, `other_elements_skipped` counts exactly the non-wall
entries, and the wall entries with an invalid space name are counted by
neither counter, so the two counters plus the invalid wall entries account
for the whole input. -/
theorem C3_skipped_accounting (wallIds : List String) (entries : List (String × SpaceAssign)) :
    (transformRun wallIds entries).wallsFound
      = (entries.filter (fun p => isWallEntry wallIds p && isValidEntry p)).length ∧
    (transformRun wallIds entries).othersSkipped
      = (entries.filter (fun p => !isWallEntry wallIds p)).length ∧
    (transformRun wallIds entries).wallsFound + (transformRun wallIds entries).othersSkipped
        + (entries.filter (fun p => isWallEntry wallIds p && !isValidEntry p)).length
      = entries.length := by
  have h1 := transformRun_wallsFound wallIds entries
    { mappings := [], wallsFound := 0, othersSkipped := 0 }
  have h2 := transformRun_skipped wallIds entries
    { mappings := [], wallsFound := 0, othersSkipped := 0 }
  have h3 := filter3_length wallIds entries
  refine ⟨by simpa [transformRun] using h1, by simpa [transformRun] using h2, ?_⟩
  have e1 : (transformRun wallIds entries).wallsFound
      = (entries.filter (fun p => isWallEntry wallIds p && isValidEntry p)).length := by
    simpa [transformRun] using h1
  have e2 : (transformRun wallIds entries).othersSkipped
      = (entries.filter (fun p => !isWallEntry wallIds p)).length := by
    simpa [transformRun] using h2
  omega

/-- Claim C2 counterexample: on input lacking the `elementSpaceMap` marker,
`room-assignment-to-walls.py` passes the input through unchanged, and that
passthrough output carries no `metadata.error` state at all — contradicting
the claim that the transformer both passes the input through and sets
`metadata.error`. -/
theorem C2_counterexample :
    roomAssignmentToWalls { elementSpaceMap := none, element_space_map := none } []
        = ToWallsOutput.passthrough { elementSpaceMap := none, element_space_map := none } ∧
    (roomAssignmentToWalls { elementSpaceMap := none, element_space_map := none } []).reportsError
        = false :=
  ⟨rfl, rfl⟩

/-- Claim C2 amended: on input lacking the `elementSpaceMap` marker, neither
script raises; `room-assignment-transform.py` replaces the input with a fresh
result holding empty mappings and `metadata.error` set, while
`room-assignment-to-walls.py` passes the input through unchanged, with no
metadata at all. -/
theorem C2_unrecognized_input (d : InputData) (wallIds : List String)
    (elems : List ModelElem) (h : d.elementSpaceMap = none) :
    roomAssignmentTransform d wallIds
        = { mappings := []
            metadata := { wallsFound := none, otherElementsSkipped := none
                          totalMappings := none
                          error := some "No room assignment data found" } } ∧
    roomAssignmentToWalls d elems = ToWallsOutput.passthrough d := by
  constructor
  · simp [roomAssignmentTransform, h]
  · simp [roomAssignmentToWalls, h]

theorem C2_unrecognized_input_witness :
    ({ elementSpaceMap := none, element_space_map := none } : InputData).elementSpaceMap = none ∧
    (roomAssignmentTransform { elementSpaceMap := none, element_space_map := none } []
        = { mappings := []
            metadata := { wallsFound := none, otherElementsSkipped := none
                          totalMappings := none
                          error := some "No room assignment data found" } } ∧
      roomAssignmentToWalls { elementSpaceMap := none, element_space_map := none } []
        = ToWallsOutput.passthrough { elementSpaceMap := none, element_space_map := none }) :=
  ⟨rfl, C2_unrecognized_input { elementSpaceMap := none, element_space_map := none } [] [] rfl⟩

/-- Claim C4 counterexample: the same one-entry map supplied under the key
`elementSpaceMap` versus under `element_space_map` makes
`room-assignment-transform.py` behave differently — the first is processed,
the second falls into the error branch — so not every reader accepts both
spellings. -/
theorem C4_counterexample :
    roomAssignmentTransform { elementSpaceMap := some mC4, element_space_map := none } ["W1"]
      ≠ roomAssignmentTransform { elementSpaceMap := none, element_space_map := some mC4 } ["W1"] := by
  decide

/-- Claim C4 amended: only `add-room-info-example.py` accepts the map under
either key spelling (with identical read result); the two mapping-transform
scripts consult only `elementSpaceMap` and treat a record carrying only
`element_space_map` as unrecognized input. -/
theorem C4_key_spellings (m : List (String × SpaceAssign)) (wallIds : List String)
    (elems : List ModelElem) :
    space_assignments_of { elementSpaceMap := some m, element_space_map := none } = some m ∧
    space_assignments_of { elementSpaceMap := none, element_space_map := some m } = some m ∧
    roomAssignmentTransform { elementSpaceMap := none, element_space_map := some m } wallIds
        = { mappings := []
            metadata := { wallsFound := none, otherElementsSkipped := none
                          totalMappings := none
                          error := some "No room assignment data found" } } ∧
    roomAssignmentToWalls { elementSpaceMap := none, element_space_map := some m } elems
        = ToWallsOutput.passthrough { elementSpaceMap := none, element_space_map := some m } :=
  ⟨rfl, rfl, rfl, rfl⟩

theorem assocFind_insertAssoc {α : Type} :
    ∀ (m : List (String × α)) (k k2 : String) (v : α),
      assocFind (insertAssoc m k v) k2 = if k = k2 then some v else assocFind m k2
  | [], k, k2, v => by
    by_cases h : k = k2 <;> simp [insertAssoc, assocFind, h]
  | p :: t, k, k2, v => by
    have ih := assocFind_insertAssoc t k k2 v
    by_cases hpk : p.1 = k
    · by_cases h : k = k2 <;> simp [insertAssoc, assocFind, hpk, h, ih]
    · by_cases h : k = k2
      · subst h
        simp [insertAssoc, assocFind, hpk, ih]
      · simp [insertAssoc, assocFind, hpk, h, ih]

theorem assocFind_insertElems (v : AssignVal) :
    ∀ (es : List Entity) (m : EMapA) (k : String),
      assocFind (insertElems v m es) k
        = if es.any (fun e => e.globalId == k) then some v else assocFind m k
  | [], m, k => by simp [insertElems]
  | e :: t, m, k => by
    have ih := assocFind_insertElems v t (insertAssoc m e.globalId v) k
    have h1 := assocFind_insertAssoc m e.globalId k v
    show assocFind (insertElems v (insertAssoc m e.globalId v) t) k = _
    rw [ih, h1]
    by_cases hek : e.globalId = k <;>
      cases ht : t.any (fun e2 => e2.globalId == k) <;>
      simp [List.any_cons, hek, ht]

theorem spaceContains_cons (r : ContainRel) (t : List ContainRel) (sgid k : String) :
    spaceContains (r :: t) sgid k
      = (((r.relatingStructure == sgid) && r.relatedElements.any (fun e => e.globalId == k))
          || spaceContains t sgid k) := by
  simp [spaceContains]

theorem assocFind_processRels (sgid : String) (v : AssignVal) :
    ∀ (rels : List ContainRel) (m : EMapA) (k : String),
      assocFind (rels.foldl (processRel sgid v) m) k
        = if spaceContains rels sgid k then some v else assocFind m k
  | [], m, k => by simp [spaceContains]
  | r :: t, m, k => by
    have ih := assocFind_processRels sgid v t (processRel sgid v m r) k
    rw [List.foldl_cons, ih, spaceContains_cons]
    have h2 := assocFind_insertElems v r.relatedElements m k
    by_cases hr : r.relatingStructure = sgid <;>
      cases he : r.relatedElements.any (fun e => e.globalId == k) <;>
      cases hc : spaceContains t sgid k <;>
      simp [processRel, hr, he, hc, h2]

theorem assocFind_processSpace (g : Graph) (m : EMapA) (s : Entity) (k : String) :
    assocFind (processSpace g m s) k
      = if spaceContains g.containRels s.globalId k then some (mkAssign g s)
        else assocFind m k :=
  assocFind_processRels s.globalId (mkAssign g s) g.containRels m k

theorem assocFind_spaces_untouched (g : Graph) (k : String) :
    ∀ (sl : List Entity) (m : EMapA),
      (∀ s ∈ sl, spaceContains g.containRels s.globalId k = false) →
      assocFind (sl.foldl (processSpace g) m) k = assocFind m k
  | [], m => by intro _; simp
  | s :: t, m => by
    intro h
    rw [List.foldl_cons,
      assocFind_spaces_untouched g k t _ (fun s2 hs2 => h s2 (List.mem_cons_of_mem s hs2)),
      assocFind_processSpace, h s (List.mem_cons_self s t)]
    simp

theorem containsKey_cons {α : Type} (p : String × α) (t : List (String × α)) (k : String) :
    containsKey (p :: t) k = ((p.1 == k) || containsKey t k) := by
  simp [containsKey]

theorem containsKey_mem {α : Type} (m : List (String × α)) (k : String) :
    containsKey m k = true ↔ k ∈ m.map Prod.fst := by
  simp [containsKey, List.any_eq_true, List.mem_map]

theorem insertAssoc_keys {α : Type} :
    ∀ (m : List (String × α)) (k : String) (v : α),
      (insertAssoc m k v).map Prod.fst
        = if containsKey m k then m.map Prod.fst else m.map Prod.fst ++ [k]
  | [], k, v => by simp [insertAssoc, containsKey]
  | p :: t, k, v => by
    have ih := insertAssoc_keys t k v
    by_cases hpk : p.1 = k
    · simp [insertAssoc, containsKey_cons, hpk]
    · rw [show insertAssoc (p :: t) k v = p :: insertAssoc t k v from by
        simp [insertAssoc, hpk]]
      rw [List.map_cons, ih, containsKey_cons]
      by_cases hc : containsKey t k <;> simp [hpk, hc]

theorem insertAssoc_keys_nodup {α : Type} (m : List (String × α)) (k : String) (v : α)
    (h : (m.map Prod.fst).Nodup) : ((insertAssoc m k v).map Prod.fst).Nodup := by
  rw [insertAssoc_keys]
  by_cases hc : containsKey m k
  · simpa [hc] using h
  · have hk : k ∉ m.map Prod.fst := fun hmem =>
      hc ((containsKey_mem m k).mpr hmem)
    simp only [hc, if_false, Bool.false_eq_true]
    rw [List.nodup_append]
    exact ⟨h, List.nodup_singleton k, by simpa using hk⟩

theorem insertElems_keys_nodup (v : AssignVal) :
    ∀ (es : List Entity) (m : EMapA),
      (m.map Prod.fst).Nodup → ((insertElems v m es).map Prod.fst).Nodup
  | [], _ => fun h => h
  | e :: t, m => fun h =>
    insertElems_keys_nodup v t (insertAssoc m e.globalId v)
      (insertAssoc_keys_nodup m e.globalId v h)

theorem processRels_keys_nodup (sgid : String) (v : AssignVal) :
    ∀ (rels : List ContainRel) (m : EMapA),
      (m.map Prod.fst).Nodup → ((rels.foldl (processRel sgid v) m).map Prod.fst).Nodup
  | [], _ => fun h => h
  | r :: t, m => fun h => by
    rw [List.foldl_cons]
    apply processRels_keys_nodup sgid v t
    unfold processRel
    split
    · exact insertElems_keys_nodup v r.relatedElements m h
    · exact h

theorem spacesFold_keys_nodup (g : Graph) :
    ∀ (sl : List Entity) (m : EMapA),
      (m.map Prod.fst).Nodup → ((sl.foldl (processSpace g) m).map Prod.fst).Nodup
  | [], _ => fun h => h
  | s :: t, m => fun h => by
    rw [List.foldl_cons]
    exact spacesFold_keys_nodup g t _
      (processRels_keys_nodup s.globalId (mkAssign g s) g.containRels m h)

theorem buildMap_keys_nodup (g : Graph) : ((buildMap g).map Prod.fst).Nodup :=
  spacesFold_keys_nodup g g.spaces [] (by simp)

/-- Claim C5: when an element is claimed by the containment relationships of
two different spaces (malformed input), the space pass still completes, the
`element_space_map` entry for that GlobalId holds the assignment of the
later-processed space, and the map keys stay unique.  The hypotheses place
`s1` strictly before `s2` in the enumeration order and let no space after
`s2` claim the element. -/
theorem C5_last_write_wins (g : Graph) (s1 s2 : Entity) (pre post : List Entity) (gid : String)
    (hspaces : g.spaces = pre ++ s2 :: post)
    (_hs1 : s1 ∈ pre) (_hs1c : spaceContains g.containRels s1.globalId gid = true)
    (hs2c : spaceContains g.containRels s2.globalId gid = true)
    (hpost : ∀ s ∈ post, spaceContains g.containRels s.globalId gid = false) :
    assocFind (buildMap g) gid = some (mkAssign g s2) ∧
    ((buildMap g).map Prod.fst).Nodup := by
  constructor
  · rw [buildMap, hspaces, List.foldl_append, List.foldl_cons,
      assocFind_spaces_untouched g gid post _ hpost,
      assocFind_processSpace, hs2c]
    simp
  · exact buildMap_keys_nodup g

theorem C5_last_write_wins_witness :
    (gTwoSpacesEx.spaces = [s1Ex] ++ s2Ex :: [] ∧ s1Ex ∈ [s1Ex] ∧
      spaceContains gTwoSpacesEx.containRels s1Ex.globalId "W1" = true ∧
      spaceContains gTwoSpacesEx.containRels s2Ex.globalId "W1" = true) ∧
    (assocFind (buildMap gTwoSpacesEx) "W1" = some (mkAssign gTwoSpacesEx s2Ex) ∧
      ((buildMap gTwoSpacesEx).map Prod.fst).Nodup) :=
  ⟨⟨rfl, by simp, by decide, by decide⟩,
    C5_last_write_wins gTwoSpacesEx s1Ex s2Ex [s1Ex] [] "W1" rfl (by simp) (by decide)
      (by decide) (by intro s hs; simp at hs)⟩

theorem storeyOf_eq_head_filter (gid : String) :
    ∀ rels : List AggRel,
      storeyOf rels gid
        = ((rels.filter (aggMatches gid)).head?).bind (fun r => r.relatingObject.name)
  | [] => by simp [storeyOf]
  | r :: t => by
    have ih := storeyOf_eq_head_filter gid t
    cases hm : aggMatches gid r
    · simp only [storeyOf, List.find?_cons, List.filter_cons, hm] at ih ⊢
      exact ih
    · simp [storeyOf, List.find?_cons, List.filter_cons, hm]

/-- Claim C6: storey resolution returns the name of the relating object of the
first aggregation relationship whose related set contains the element and
whose relating object is a building storey (the head of the filtered list);
it returns null when no such relationship exists (empty filter), and a
leading relationship that does not satisfy the condition — for example a
building aggregating the element — is skipped rather than ending the scan. -/
theorem C6_storey_resolution (rels : List AggRel) (gid : String) :
    (storeyOf rels gid
        = ((rels.filter (aggMatches gid)).head?).bind (fun r => r.relatingObject.name)) ∧
    ∀ r : AggRel, storeyOf (r :: rels) gid
        = (if aggMatches gid r then r.relatingObject.name else storeyOf rels gid) := by
  refine ⟨storeyOf_eq_head_filter gid rels, ?_⟩
  intro r
  cases hm : aggMatches gid r <;> simp [storeyOf, List.find?_cons, hm]

theorem classifySpaces_foldl :
    ∀ (sd : List SpaceRec) (a b : List SpaceRec),
      sd.foldl classifyStep (a, b)
        = (a ++ sd.filter isCirculation, b ++ sd.filter (fun s => !isCirculation s))
  | [], a, b => by simp
  | s :: t, a, b => by
    have ih1 := classifySpaces_foldl t (a ++ [s]) b
    have ih2 := classifySpaces_foldl t a (b ++ [s])
    cases hc : isCirculation s
    · simp only [List.foldl_cons, classifyStep, hc, if_false, List.filter_cons]
      simp only [hc, Bool.false_eq_true, if_false, Bool.not_false, if_true]
      simpa [List.append_assoc] using ih2
    · simp only [List.foldl_cons, classifyStep, hc, if_true, List.filter_cons]
      simp only [hc, if_true, Bool.not_true, Bool.false_eq_true, if_false]
      simpa [List.append_assoc] using ih1

theorem classifySpaces_eq_filter (sd : List SpaceRec) :
    classifySpaces sd
      = (sd.filter isCirculation, sd.filter (fun s => !isCirculation s)) := by
  have h := classifySpaces_foldl sd [] []
  simpa [classifySpaces] using h

theorem filter_not_length (p : SpaceRec → Bool) :
    ∀ sd : List SpaceRec,
      (sd.filter p).length + (sd.filter (fun s => !p s)).length = sd.length
  | [] => by simp
  | s :: t => by
    have ih := filter_not_length p t
    cases hc : p s <;> simp [List.filter_cons, hc] <;> omega

theorem filter_not_areaSum (p : SpaceRec → Bool) :
    ∀ sd : List SpaceRec,
      areaSum (sd.filter p) + areaSum (sd.filter (fun s => !p s)) = areaSum sd
  | [] => by simp [areaSum]
  | s :: t => by
    have ih := filter_not_areaSum p t
    cases hc : p s <;> simp [List.filter_cons, hc, areaSum] at ih ⊢ <;> linarith

/-- Claim C7: the classification loop puts every space into exactly one of the
circulation and program buckets — membership in the circulation bucket is
exactly the keyword test on name or type, membership in the program bucket is
exactly its negation, and the two bucket sizes add up to the space count —
and the circulation area plus the program area equals the total area (the
identity is exact on the unrounded sums, hence within rounding tolerance
after presentation rounding). -/
theorem C7_classification_partition (sd : List SpaceRec) :
    (∀ s ∈ (classifySpaces sd).1, isCirculation s = true) ∧
    (∀ s ∈ (classifySpaces sd).2, isCirculation s = false) ∧
    (classifySpaces sd).1.length + (classifySpaces sd).2.length = sd.length ∧
    areaSum (classifySpaces sd).1 + areaSum (classifySpaces sd).2 = areaSum sd := by
  rw [classifySpaces_eq_filter]
  refine ⟨?_, ?_, ?_, ?_⟩
  · intro s hs
    exact (List.mem_filter.mp hs).2
  · intro s hs
    simpa using (List.mem_filter.mp hs).2
  · exact filter_not_length isCirculation sd
  · exact filter_not_areaSum isCirculation sd

theorem round2_zero : round2 0 = 0 := by
  norm_num [round2]

/-- Claim C8: on a graph with no Space entities the analysis yields an empty
space list, an empty element-space map, zero total area and zero average
height (the average is guarded, never a division fault), and both the
circulation and the program percentage are 0 rather than an error or NaN. -/
theorem C8_empty_graph (g : Graph) (h : g.spaces = []) :
    (analyze g).spaces = [] ∧
    (analyze g).element_space_map = [] ∧
    (analyze g).summary.total_area = 0 ∧
    (analyze g).summary.average_height = 0 ∧
    (analyze g).summary.circulation.percentage = 0 ∧
    (analyze g).summary.program.percentage = 0 := by
  have hm : buildMap g = [] := by
    rw [buildMap, h]
    rfl
  refine ⟨?_, ?_, ?_, ?_, ?_, ?_⟩ <;>
    simp [analyze, h, hm, areaSum, heightSum, classifySpaces, round2_zero]

theorem C8_empty_graph_witness :
    gEmptyEx.spaces = [] ∧
    ((analyze gEmptyEx).spaces = [] ∧
      (analyze gEmptyEx).element_space_map = [] ∧
      (analyze gEmptyEx).summary.total_area = 0 ∧
      (analyze gEmptyEx).summary.average_height = 0 ∧
      (analyze gEmptyEx).summary.circulation.percentage = 0 ∧
      (analyze gEmptyEx).summary.program.percentage = 0) :=
  ⟨rfl, C8_empty_graph gEmptyEx rfl⟩

theorem unassignedList_foldl (g : Graph) (m : EMapA) :
    ∀ (l : List Entity) (acc : List ElemRec),
      l.foldl (unassignedStep g m) acc
        = acc ++ (l.filter (fun e =>
            !containsKey m e.globalId && !isContainedAny g.containRels e)).map mkElemRec
  | [], acc => by simp
  | e :: t, acc => by
    have ih1 := unassignedList_foldl g m t (acc ++ [mkElemRec e])
    have ih2 := unassignedList_foldl g m t acc
    cases hk : containsKey m e.globalId
    · cases hc : isContainedAny g.containRels e
      · simp only [List.foldl_cons, unassignedStep, hk, hc, Bool.not_false, if_true,
          List.filter_cons, Bool.and_self, List.map_cons]
        simpa [List.append_assoc] using ih1
      · simp only [List.foldl_cons, unassignedStep, hk, hc, Bool.not_false, Bool.not_true,
          if_true, Bool.false_eq_true, if_false, List.filter_cons, Bool.and_false]
        simpa using ih2
    · simp only [List.foldl_cons, unassignedStep, hk, Bool.not_true, Bool.false_eq_true,
        if_false, List.filter_cons, Bool.false_and]
      simpa using ih2

theorem unassignedList_eq_filter (g : Graph) (m : EMapA) :
    unassignedList g m
      = (g.elements.filter (fun e =>
          !containsKey m e.globalId && !isContainedAny g.containRels e)).map mkElemRec := by
  have h := unassignedList_foldl g m g.elements []
  simpa [unassignedList] using h

/-- Claim C9: every record of the unassigned list stems from an element whose
GlobalId is absent from the element-space map, and only elements with no
containment relation to any spatial structure are kept; an element absent
from the map but contained in some structure survives neither the map nor
the unassigned filter. -/
theorem C9_unassigned_disjoint (g : Graph) :
    (unassignedList g (buildMap g)
        = (g.elements.filter (fun e =>
            !containsKey (buildMap g) e.globalId
              && !isContainedAny g.containRels e)).map mkElemRec) ∧
    (∀ u ∈ unassignedList g (buildMap g), containsKey (buildMap g) u.id = false) ∧
    (∀ u ∈ unassignedList g (buildMap g),
      ∃ e, e ∈ g.elements ∧ isContainedAny g.containRels e = false ∧ u = mkElemRec e) ∧
    (∀ e ∈ g.elements, containsKey (buildMap g) e.globalId = false →
      isContainedAny g.containRels e = true →
      e ∉ g.elements.filter (fun e2 =>
        !containsKey (buildMap g) e2.globalId && !isContainedAny g.containRels e2)) := by
  have hchar := unassignedList_eq_filter g (buildMap g)
  refine ⟨hchar, ?_, ?_, ?_⟩
  · intro u hu
    rw [hchar] at hu
    rcases List.mem_map.mp hu with ⟨e, he, hrec⟩
    have hpred := (List.mem_filter.mp he).2
    simp only [Bool.and_eq_true, Bool.not_eq_true'] at hpred
    rw [← hrec]
    exact hpred.1
  · intro u hu
    rw [hchar] at hu
    rcases List.mem_map.mp hu with ⟨e, he, hrec⟩
    have hpred := (List.mem_filter.mp he).2
    simp only [Bool.and_eq_true, Bool.not_eq_true'] at hpred
    exact ⟨e, (List.mem_filter.mp he).1, hpred.2, hrec.symm⟩
  · intro e _ _ hcont hmem
    have hpred := (List.mem_filter.mp hmem).2
    simp only [Bool.and_eq_true, Bool.not_eq_true'] at hpred
    rw [hcont] at hpred
    simp at hpred

theorem C9_unassigned_disjoint_witness :
    (unassignedList gTwoSpacesEx (buildMap gTwoSpacesEx)
        = (gTwoSpacesEx.elements.filter (fun e =>
            !containsKey (buildMap gTwoSpacesEx) e.globalId
              && !isContainedAny gTwoSpacesEx.containRels e)).map mkElemRec) ∧
    (∀ u ∈ unassignedList gTwoSpacesEx (buildMap gTwoSpacesEx),
      containsKey (buildMap gTwoSpacesEx) u.id = false) ∧
    (∀ u ∈ unassignedList gTwoSpacesEx (buildMap gTwoSpacesEx),
      ∃ e, e ∈ gTwoSpacesEx.elements ∧ isContainedAny gTwoSpacesEx.containRels e = false ∧
        u = mkElemRec e) ∧
    (∀ e ∈ gTwoSpacesEx.elements, containsKey (buildMap gTwoSpacesEx) e.globalId = false →
      isContainedAny gTwoSpacesEx.containRels e = true →
      e ∉ gTwoSpacesEx.elements.filter (fun e2 =>
        !containsKey (buildMap gTwoSpacesEx) e2.globalId
          && !isContainedAny gTwoSpacesEx.containRels e2)) :=
  C9_unassigned_disjoint gTwoSpacesEx

/-- Claim C10: the name and type fallbacks trigger on any falsy attribute
value, not only an absent one — a Space entity whose `Name` is the empty
string gets the record name `Space_` plus the first 8 characters of its
GlobalId, and one whose `ObjectType` is the empty string gets the record
type `Generic`. -/
theorem C10_falsy_fallbacks (g : Graph) (s : Entity) :
    (s.name = some "" → (mkSpaceRec g s).name = "Space_" ++ s.globalId.take 8) ∧
    (s.objectType = some "" → (mkSpaceRec g s).type = "Generic") := by
  constructor
  · intro h
    simp [mkSpaceRec, pyOr, h]
  · intro h
    simp [mkSpaceRec, pyOr, h]

theorem C10_falsy_fallbacks_witness :
    (sBlankEx.name = some "" ∧
      (mkSpaceRec gEmptyEx sBlankEx).name = "Space_" ++ sBlankEx.globalId.take 8) ∧
    (sBlankEx.objectType = some "" ∧
      (mkSpaceRec gEmptyEx sBlankEx).type = "Generic") :=
  ⟨⟨rfl, (C10_falsy_fallbacks gEmptyEx sBlankEx).1 rfl⟩,
    ⟨rfl, (C10_falsy_fallbacks gEmptyEx sBlankEx).2 rfl⟩⟩
